import Mathlib

/-!
Verification development for the `internal/p4` package of p4harmonize.

Modelling conventions:
* Go strings are modelled as their sequence of runes (`List Char`); all the
  inputs considered here are valid UTF-8 text, where Go's byte-wise string
  order and slicing agree with the rune-wise view used below (slice indices
  taken by the code always fall on rune boundaries for the inputs involved).
* Go's multiple-return `(T, error)` is modelled as `Except GoErr T`;
  the distinct `fmt.Errorf` shapes of the source are the constructors of
  `GoErr`, each carrying the data interpolated into its format string.
* Run-time panics (out-of-range slicing) are modelled as an explicit
  `panicked` outcome rather than as a value.
* External collaborators (the `p4` process, `bsh`, and the spec queries
  behind `StreamDepth`) are parameters of the functions that consume them.
-/

namespace P4

/-- A Go string, viewed as its runes. -/
abbrev GoStr := List Char

/-- Rune list of a Lean string literal (notation convenience only). -/
def gs (s : String) : GoStr := s.data

/-- Modelled from the Go standard library: `unicode.IsSpace` on the Latin-1
range (`'\t'`, `'\n'`, `'\v'`, `'\f'`, `'\r'`, `' '`, U+0085, U+00A0).
Higher-plane Unicode spaces are omitted; every input in this development is
ASCII. -/
def goIsSpace (c : Char) : Bool :=
  c = ' ' || c = '\t' || c = '\n' || c = '\u000B' || c = '\u000C' || c = '\r' ||
  c = '\u0085' || c = '\u00A0'

/-- Modelled from the Go standard library: `strings.TrimSpace`. -/
def trimSpace (s : GoStr) : GoStr :=
  ((s.dropWhile goIsSpace).reverse.dropWhile goIsSpace).reverse

/-- Modelled from the Go standard library: `strings.HasPrefix s pre`. -/
def hasPrefixB : GoStr → GoStr → Bool
  | _, [] => true
  | [], _ :: _ => false
  | c :: s, p :: ps => c = p && hasPrefixB s ps

/-- Modelled from the Go standard library: `strings.Contains s sub`. -/
def containsB : GoStr → GoStr → Bool
  | [], sub => hasPrefixB [] sub
  | c :: t, sub => hasPrefixB (c :: t) sub || containsB t sub

/-- Go slice expression `s[n:]`: `none` models the run-time panic thrown
when `n` exceeds the length. -/
def goSliceFrom (s : GoStr) (n : Nat) : Option GoStr :=
  if n ≤ s.length then some (s.drop n) else none

/-- Modelled from the Go standard library: byte-wise `<` on strings, which
for valid UTF-8 text coincides with lexicographic order on runes. -/
def goStrLt : GoStr → GoStr → Bool
  | [], [] => false
  | [], _ :: _ => true
  | _ :: _, [] => false
  | a :: s, b :: t => if a < b then true else if b < a then false else goStrLt s t

/-- Modelled from the Go standard library: `strings.ToLower`, restricted to
the ASCII case mapping (the only case-carrying characters appearing here). -/
def toLowerChar (c : Char) : Char :=
  if 'A' ≤ c ∧ c ≤ 'Z' then Char.ofNat (c.toNat + 32) else c

/-- `strings.ToLower` over a whole string. -/
def toLowerStr (s : GoStr) : GoStr := s.map toLowerChar

/-- The error values produced by `internal/p4/p4.go`, one constructor per
`fmt.Errorf` shape, carrying the data interpolated into the format string. -/
inductive GoErr where
  /-- "error parsing perforce-style escape code '%s'" (`UnescapePath`). -/
  | parseEscape (fragment : GoStr)
  /-- "string ended before escaped character value in '%s'" (`UnescapePath`). -/
  | endedEscape (path : GoStr)
  /-- "unable to get stream depth of '%s'" (`streamDepth`). -/
  | depthErr (stream : GoStr)
  /-- "line '%s' does not begin with '//'" (`getDepotPrefix`). -/
  | noSlashRoot (line : GoStr)
  /-- "expected '... [tag]', but got: %s" (`runAndParseDepotFiles`). -/
  | badTagLine (line : GoStr)
  /-- "error parsing depot prefix: %w" (`runAndParseDepotFiles`). -/
  | wrapDepotPrefix (inner : GoErr)
  /-- "missing '-z tag' in non-fstat cmd: %s" (`runAndParseDepotFiles`). -/
  | missingZTag (cmd : GoStr)
  /-- "error listing files: %w" (`runAndParseDepotFiles`). -/
  | listingFiles (inner : GoErr)
  /-- An error surfaced by an external collaborator (the `p4` process via
  `bsh`, or the spec queries behind `StreamDepth`). -/
  | external (msg : GoStr)
  deriving DecidableEq, Repr

/-! ## streamDepth (p4.go lines 114-125) -/

/-- `streamDepth`: counts `'/'` runes, starting the counter at `-1`; values
below `1` are an error. -/
def streamDepth (stream : GoStr) : Except GoErr Int :=
  let count : Int := (stream.count '/' : Int) - 1
  if count < 1 then .error (.depthErr stream) else .ok count

/-! ## getDepotPrefix (p4.go lines 282-294) -/

/-- The loop of `getDepotPrefix`: `i += strings.Index(line[i:], "/"); i++`
repeated `depth` times.  When no slash remains, `strings.Index` yields `-1`
and the two statements cancel, leaving `i` unchanged. -/
def depotPrefixLoop (line : GoStr) : Nat → Nat → Nat
  | 0, i => i
  | d + 1, i =>
    match (line.drop i).findIdx? (fun c => c = '/') with
    | some k => depotPrefixLoop line d (i + k + 1)
    | none => depotPrefixLoop line d i

/-- `getDepotPrefix line depth`: requires the `//` root, then walks
`depth` iterations of `depotPrefixLoop` from index 2 and returns
`line[:i]`.  (Go's `for depth > 0` loop runs `depth.toNat` times.) -/
def getDepotPrefix (line : GoStr) (depth : Int) : Except GoErr GoStr :=
  if !(hasPrefixB line (gs "//")) then .error (.noSlashRoot line)
  else .ok (line.take (depotPrefixLoop line depth.toNat 2))

/-! ## EscapePath / UnescapePath (p4.go lines 298-362) -/

/-- The per-rune case of `EscapePath`'s switch. -/
def escapeRune (r : Char) : GoStr :=
  if r = '@' then gs "%40"
  else if r = '#' then gs "%23"
  else if r = '*' then gs "%2A"
  else if r = '%' then gs "%25"
  else [r]

/-- `EscapePath`: each rune is written through `escapeRune`. -/
def EscapePath : GoStr → GoStr
  | [] => []
  | r :: t => escapeRune r ++ EscapePath t

/-- Value of an ASCII hexadecimal digit, as accepted by `strconv.ParseInt`
with base 16. -/
def hexDigitVal (c : Char) : Option Nat :=
  if '0' ≤ c ∧ c ≤ '9' then some (c.toNat - '0'.toNat)
  else if 'a' ≤ c ∧ c ≤ 'f' then some (c.toNat - 'a'.toNat + 10)
  else if 'A' ≤ c ∧ c ≤ 'F' then some (c.toNat - 'A'.toNat + 10)
  else none

/-- Digit-accumulation loop of `strconv.ParseUint` in base 16.  The callers
below pass at most two digits, far below the 64-bit cutoff, so the overflow
branch of the original is omitted. -/
def parseHexDigits : Nat → GoStr → Option Nat
  | acc, [] => some acc
  | acc, c :: t =>
    match hexDigitVal c with
    | some d => parseHexDigits (16 * acc + d) t
    | none => none

/-- Modelled from the Go standard library: `strconv.ParseInt(s, 16, 64)`.
An optional leading sign is accepted; the rest must be one or more
hexadecimal digits. -/
def parseIntHex (s : GoStr) : Option Int :=
  match s with
  | [] => none
  | '+' :: t => if t.isEmpty then none else (parseHexDigits 0 t).map Int.ofNat
  | '-' :: t => if t.isEmpty then none else (parseHexDigits 0 t).map (fun n => -(n : Int))
  | _ => (parseHexDigits 0 s).map Int.ofNat

/-- Modelled from the Go standard library: `strings.Builder.WriteRune` after
the conversion `rune(c)`.  An invalid code point (negative, a surrogate, or
above U+10FFFF) is written as U+FFFD. -/
def writeRuneChar (v : Int) : Char :=
  if 0 ≤ v ∧ v < 0xD800 then Char.ofNat v.toNat
  else if 0xE000 ≤ v ∧ v < 0x110000 then Char.ofNat v.toNat
  else '�'

/-- The scanning loop of `UnescapePath` (`orig` is the whole input, used by
the truncated-escape error).  At a `'%'` the following two runes are parsed
as a hex value and written through `writeRuneChar`; at the end of the input
in the escaped state the "string ended" error is produced. -/
def unescapeAux (orig : GoStr) : GoStr → Except GoErr GoStr
  | [] => .ok []
  | c :: rest =>
    if c = '%' then
      match rest with
      | c1 :: c2 :: t =>
        match parseIntHex [c1, c2] with
        | some v =>
          match unescapeAux orig t with
          | .ok u => .ok (writeRuneChar v :: u)
          | .error e => .error e
        | none => .error (.parseEscape [c, c1, c2])
      | _ => .error (.endedEscape orig)
    else
      match unescapeAux orig rest with
      | .ok u => .ok (c :: u)
      | .error e => .error e

/-- `UnescapePath`. -/
def UnescapePath (path : GoStr) : Except GoErr GoStr := unescapeAux path path

/-! ## DepotFile and the record parser (p4.go lines 173-263) -/

/-- The `DepotFile` struct.  (`Type` is a Lean keyword, so that field is
spelled `Typ`.) -/
structure DepotFile where
  Path : GoStr
  Action : GoStr
  CL : GoStr
  Typ : GoStr
  Digest : GoStr
  deriving DecidableEq, Repr

/-- The zero value `DepotFile{}`. -/
def emptyDepotFile : DepotFile := ⟨[], [], [], [], []⟩

/-- `sort.Interface.Less` of `DepotFileCaseInsensitive` (p4.go lines
185-187): compare paths lowered. -/
def ciLess (a b : DepotFile) : Bool := goStrLt (toLowerStr a.Path) (toLowerStr b.Path)

/-- The state captured by the closure passed to `cmdAndScan` inside
`runAndParseDepotFiles`: the accumulated records `out`, the in-progress
record `cur`, and the cached depot prefix (local variable `prefix` of the
source, spelled `pfx` here). -/
structure ParseState where
  out : List DepotFile
  cur : DepotFile
  pfx : GoStr
  deriving DecidableEq, Repr

/-- The state before any line is seen. -/
def initState : ParseState := ⟨[], emptyDepotFile, []⟩

/-- Result of one call of a line handler: a new state, an error (Go
`return err`), or a run-time panic. -/
inductive HandlerOut (σ : Type) where
  | ok (s : σ)
  | err (e : GoErr)
  | panicked
  deriving DecidableEq, Repr

/-- One call of the closure passed to `cmdAndScan` by
`runAndParseDepotFiles` (p4.go lines 209-253).  The blank-line branch
flushes `cur` when its `Path` is non-empty; otherwise the switch matches
the tag prefixes in source order.  The constant slice indices of the
non-`depotFile` arms are covered by the matched prefix length, so only the
`depotFile` arm (`line[14:]` against a guaranteed length of 13) and the
prefix strip (`raw[len(pfx):]`) go through `goSliceFrom`. -/
def parseLine (d : Int) (st : ParseState) (rawLine : GoStr) : HandlerOut ParseState :=
  let line := trimSpace rawLine
  if line.length = 0 then
    if st.cur.Path.length ≠ 0 then
      .ok { st with out := st.out ++ [st.cur], cur := emptyDepotFile }
    else
      .ok { st with cur := emptyDepotFile }
  else if line.length < 5 || !(hasPrefixB line (gs "... ")) then
    .err (.badTagLine line)
  else if hasPrefixB (line.drop 4) (gs "depotFile") then
    match goSliceFrom line 14 with
    | none => .panicked
    | some rest =>
      let raw := trimSpace rest
      if st.pfx.length = 0 then
        match getDepotPrefix raw d with
        | .error e => .err (.wrapDepotPrefix e)
        | .ok p =>
          match goSliceFrom raw p.length with
          | none => .panicked
          | some rel => .ok { st with pfx := p, cur := { st.cur with Path := rel } }
      else
        match goSliceFrom raw st.pfx.length with
        | none => .panicked
        | some rel => .ok { st with cur := { st.cur with Path := rel } }
  else if hasPrefixB (line.drop 4) (gs "action") then
    .ok { st with cur := { st.cur with Action := trimSpace (line.drop 10) } }
  else if hasPrefixB (line.drop 4) (gs "headAction") then
    .ok { st with cur := { st.cur with Action := trimSpace (line.drop 14) } }
  else if hasPrefixB (line.drop 4) (gs "change") then
    .ok { st with cur := { st.cur with CL := trimSpace (line.drop 10) } }
  else if hasPrefixB (line.drop 4) (gs "headChange") then
    .ok { st with cur := { st.cur with CL := trimSpace (line.drop 14) } }
  else if hasPrefixB (line.drop 4) (gs "type") then
    .ok { st with cur := { st.cur with Typ := trimSpace (line.drop 8) } }
  else if hasPrefixB (line.drop 4) (gs "headType") then
    .ok { st with cur := { st.cur with Typ := trimSpace (line.drop 12) } }
  else if hasPrefixB (line.drop 4) (gs "digest") then
    .ok { st with cur := { st.cur with Digest := trimSpace (line.drop 10) } }
  else
    .ok st

/-! ## cmdAndScan (p4.go lines 150-171) -/

/-- How the scanning loop over the pipe ends: all lines consumed without a
handler error; stopped by the first handler error `e` (the read side is
then closed with `e`, so `s.Err()` reports `e`; lines still buffered may be
delivered to the handler afterwards, but the resulting state is observable
only when no error occurred, so the model stops here); or a handler
panic. -/
inductive ScanEnd (σ : Type) where
  | done (s : σ)
  | stopped (s : σ) (e : GoErr)
  | panicked
  deriving DecidableEq, Repr

/-- The `for s.Scan()` loop of `cmdAndScan`, threading the closure state. -/
def scanLoop {σ : Type} (f : σ → GoStr → HandlerOut σ) : σ → List GoStr → ScanEnd σ
  | s, [] => .done s
  | s, l :: rest =>
    match f s l with
    | .ok s' => scanLoop f s' rest
    | .err e => .stopped s e
    | .panicked => .panicked

/-- `cmdAndScan cmdErr f s₀ lines`.  The lines the external command writes
to the pipe and the error its execution reports through `RunErr` (`cmdErr`,
delivered on `chCmd`) are parameters: the command itself is an external
collaborator.  The source returns the channel error when it is non-nil and
falls back to the scanner error `s.Err()` otherwise — `s.Err()` being the
error the read side was closed with (the first handler error), or nil. -/
def cmdAndScan {σ : Type} (cmdErr : Option GoErr) (f : σ → GoStr → HandlerOut σ)
    (s₀ : σ) (lines : List GoStr) : HandlerOut σ :=
  match scanLoop f s₀ lines with
  | .panicked => .panicked
  | .done s =>
    match cmdErr with
    | some p => .err p
    | none => .ok s
  | .stopped _ e =>
    match cmdErr with
    | some p => .err p
    | none => .err e

/-! ## runAndParseDepotFiles (p4.go lines 194-263) -/

/-- `runAndParseDepotFiles` up to (but not including) the final
`sort.Sort`: the guard on the command string, the stream depth (the result
of the external query chain `p.StreamDepth()` is the parameter
`depthRes`), and the streaming parse.  On success the value is the list of
flushed records in discovery order. -/
def runAndParseDepotFilesPre (cmd : GoStr) (depthRes : Except GoErr Int)
    (cmdErr : Option GoErr) (lines : List GoStr) : HandlerOut (List DepotFile) :=
  if !containsB cmd (gs "-ztag") && !containsB cmd (gs "-z tag") &&
      !containsB cmd (gs "fstat") then
    .err (.missingZTag cmd)
  else
    match depthRes with
    | .error e => .err e
    | .ok d =>
      match cmdAndScan cmdErr (parseLine d) initState lines with
      | .panicked => .panicked
      | .err e => .err (.listingFiles e)
      | .ok st => .ok st.out

/-- Consecutive records are in order when the later one is not `Less` than
the earlier: the meaning of "sorted" for `sort.Sort`'s `Less`. -/
def ciSorted : List DepotFile → Bool
  | [] => true
  | [_] => true
  | a :: b :: t => !ciLess b a && ciSorted (b :: t)

/-- Modelled from the spec of the Go standard library's `sort.Sort` (the
sorting itself is stdlib code, not part of this repository): it rearranges
the data into some order in which `Less` never holds of a later element
against an earlier consecutive one, and it is documented as **not**
guaranteed to be stable.  `RunAndParseSpec args r` therefore holds of every
result `r` the full `runAndParseDepotFiles` may return: on a successful
parse, any `Less`-sorted permutation of the discovered records. -/
def RunAndParseSpec (cmd : GoStr) (depthRes : Except GoErr Int)
    (cmdErr : Option GoErr) (lines : List GoStr)
    (r : HandlerOut (List DepotFile)) : Prop :=
  match runAndParseDepotFilesPre cmd depthRes cmdErr lines with
  | .ok pre => ∃ files, r = .ok files ∧ files.Perm pre ∧ ciSorted files = true
  | other => r = other


/-- Equality of `Except` results is decidable componentwise. -/
instance {e a : Type} [DecidableEq e] [DecidableEq a] : DecidableEq (Except e a) := fun x y =>
  match x, y with
  | .ok u, .ok v =>
    if h : u = v then .isTrue (by rw [h]) else .isFalse (by simp [h])
  | .error u, .error v =>
    if h : u = v then .isTrue (by rw [h]) else .isFalse (by simp [h])
  | .ok _, .error _ => .isFalse (by simp)
  | .error _, .ok _ => .isFalse (by simp)

/-! ## Concrete inputs used by the claim-level theorems -/

/-- A handler error distinct from the process error, for exercising the
error priority of `cmdAndScan`. -/
def handlerFailure : GoErr := .external (gs "handler failure")

/-- The error the external command reports after its pipe is closed early
(a non-zero exit surfaced by `RunErr`). -/
def exitStatus1 : GoErr := .external (gs "exit status 1")

/-- A line handler that rejects every line with `handlerFailure`. -/
def rejectAll : Unit → GoStr → HandlerOut Unit := fun _ _ => .err handlerFailure

/-- A command string satisfying the guard of `runAndParseDepotFiles`. -/
def fstatCmd : GoStr := gs "p4 fstat -Ol files"

/-- A command string containing none of `-ztag`, `-z tag`, `fstat`. -/
def plainCmd : GoStr := gs "p4 files //depot/main"

/-- Records discovered in the spec's sorting example, in discovery order
`zeta`, `Alpha`, `beta` (paths relative to the prefix `//s/d/`). -/
def zetaLines : List GoStr :=
  [gs "... depotFile //s/d/zeta", gs "", gs "... depotFile //s/d/Alpha", gs "",
   gs "... depotFile //s/d/beta", gs ""]

/-- The record with path `zeta`. -/
def recZeta : DepotFile := ⟨gs "zeta", [], [], [], []⟩

/-- The record with path `Alpha`. -/
def recAlpha : DepotFile := ⟨gs "Alpha", [], [], [], []⟩

/-- The record with path `beta`. -/
def recBeta : DepotFile := ⟨gs "beta", [], [], [], []⟩

/-- Two records whose paths differ only in case, discovered as `a` then
`A`. -/
def tieLines : List GoStr :=
  [gs "... depotFile //s/d/a", gs "", gs "... depotFile //s/d/A", gs ""]

/-- The record with path `a`. -/
def recLowerA : DepotFile := ⟨gs "a", [], [], [], []⟩

/-- The record with path `A`. -/
def recUpperA : DepotFile := ⟨gs "A", [], [], [], []⟩

/-- A single complete record (terminated by a blank line). -/
def engineLines : List GoStr := [gs "... depotFile //s/d/Engine", gs ""]

/-- The record parsed from `engineLines`. -/
def recEngine : DepotFile := ⟨gs "Engine", [], [], [], []⟩

/-- A record whose lines carry the alternate `headAction` tag before the
primary `action` tag. -/
def headThenPrimaryLines : List GoStr :=
  [gs "... depotFile //s/d/f", gs "... headAction branch", gs "... action edit", gs ""]

/-- The record parsed from `headThenPrimaryLines`: the later `action` line
wins. -/
def recHeadThenPrimary : DepotFile := ⟨gs "f", gs "edit", [], [], []⟩

/-- The text `... action ` followed by a value, in explicit rune form. -/
def actionLine (v : GoStr) : GoStr :=
  '.' :: '.' :: '.' :: ' ' :: 'a' :: 'c' :: 't' :: 'i' :: 'o' :: 'n' :: ' ' :: v

/-- The text `... headAction ` followed by a value, in explicit rune
form. -/
def headActionLine (v : GoStr) : GoStr :=
  '.' :: '.' :: '.' :: ' ' :: 'h' :: 'e' :: 'a' :: 'd' :: 'A' :: 'c' :: 't' :: 'i' ::
  'o' :: 'n' :: ' ' :: v

/-! # Theorems for the claims -/

/-! ## C1 -/

/-- C1 counterexample: the handler rejects the only line with
`handlerFailure`, the command (its pipe closed early) reports
`exitStatus1`; `cmdAndScan` returns the process error, not the handler
error, contrary to the claim that the handler error is preserved even when
the command subsequently reports a non-zero exit. -/
theorem C1_counterexample :
    cmdAndScan (some exitStatus1) rejectAll () [gs "line"] = .err exitStatus1 ∧
    exitStatus1 ≠ handlerFailure ∧
    scanLoop rejectAll () [gs "line"] = .stopped () handlerFailure := by
  refine ⟨by decide, by decide, by decide⟩

/-- C1 amended: `cmdAndScan` returns the error reported on the command
channel whenever it is non-nil (masking any handler error); the first
handler error is returned exactly when the command reports no error. -/
theorem C1_amended {σ : Type} (cmdErr : Option GoErr) (f : σ → GoStr → HandlerOut σ)
    (s₀ : σ) (lines : List GoStr) :
    (∀ p, cmdErr = some p → scanLoop f s₀ lines ≠ .panicked →
      cmdAndScan cmdErr f s₀ lines = .err p) ∧
    (∀ s e, cmdErr = none → scanLoop f s₀ lines = .stopped s e →
      cmdAndScan cmdErr f s₀ lines = .err e) := by
  constructor
  · intro p hp hnp
    unfold cmdAndScan
    cases h : scanLoop f s₀ lines with
    | panicked => exact absurd h hnp
    | done s => simp [hp]
    | stopped s e => simp [hp]
  · intro s e hn hs
    unfold cmdAndScan
    rw [hs, hn]

/-- C1 amended, instantiated: the two branches at the concrete scenario of
the counterexample. -/
theorem C1_amended_witness :
    cmdAndScan (some exitStatus1) rejectAll () [gs "line"] = .err exitStatus1 ∧
    cmdAndScan none rejectAll () [gs "line"] = .err handlerFailure :=
  ⟨(C1_amended (some exitStatus1) rejectAll () [gs "line"]).1 exitStatus1 rfl (by decide),
   (C1_amended none rejectAll () [gs "line"]).2 () handlerFailure rfl (by decide)⟩

/-! ## C2 -/

/-- C2 counterexample: `//a` has no slash after the leading `//`, yet
`getDepotPrefix` with depth 1 succeeds and returns `//` instead of the
error the claim requires. -/
theorem C2_counterexample :
    getDepotPrefix (gs "//a") 1 = .ok (gs "//") ∧
    List.count '/' ((gs "//a").drop 2) = 0 := by
  refine ⟨by decide, by decide⟩

/-- The loop of `getDepotPrefix` never moves `i` when no slash remains. -/
theorem depotPrefixLoop_of_no_slash (line : GoStr) (i : Nat)
    (h : ∀ c ∈ line.drop i, c ≠ '/') : ∀ d, depotPrefixLoop line d i = i := by
  intro d
  induction d with
  | zero => rfl
  | succ d ih =>
    unfold depotPrefixLoop
    have hnone : (line.drop i).findIdx? (fun c => c = '/') = none := by
      rw [List.findIdx?_eq_none_iff]
      intro x hx
      simp [h x hx]
    rw [hnone]
    exact ih

/-- A string with the prefix `//` starts with two slashes. -/
theorem exists_tail_of_slash2 (line : GoStr) (h : hasPrefixB line (gs "//") = true) :
    ∃ rest, line = '/' :: '/' :: rest := by
  match line with
  | [] => simp [hasPrefixB, gs] at h
  | [c] => simp [hasPrefixB, gs] at h
  | a :: b :: rest =>
    simp only [hasPrefixB, gs, Bool.and_eq_true, decide_eq_true_eq] at h
    obtain ⟨ha, hb, -⟩ := h
    exact ⟨rest, by rw [ha, hb]⟩

/-- C2 amended: `getDepotPrefix` fails exactly when the line does not begin
with `//`; when the line begins with `//` it always succeeds, and in
particular when no slash at all follows the leading `//` (fewer than any
requested depth) it silently returns just `//`. -/
theorem C2_amended (line : GoStr) (depth : Int) :
    (hasPrefixB line (gs "//") = false →
      getDepotPrefix line depth = .error (.noSlashRoot line)) ∧
    (hasPrefixB line (gs "//") = true →
      ∃ p, getDepotPrefix line depth = .ok p) ∧
    (hasPrefixB line (gs "//") = true → (∀ c ∈ line.drop 2, c ≠ '/') →
      getDepotPrefix line depth = .ok (gs "//")) := by
  refine ⟨fun h => ?_, fun h => ?_, fun h hns => ?_⟩
  · simp [getDepotPrefix, h]
  · refine ⟨line.take (depotPrefixLoop line depth.toNat 2), ?_⟩
    simp [getDepotPrefix, h]
  · obtain ⟨rest, rfl⟩ := exists_tail_of_slash2 line h
    simp only [getDepotPrefix, h, Bool.not_true]
    rw [depotPrefixLoop_of_no_slash _ 2 hns]
    rfl

/-- C2 amended, instantiated: a line without the `//` root fails; `//a`
(no further slash) succeeds with prefix `//` at depth 5. -/
theorem C2_amended_witness :
    getDepotPrefix (gs "a/b") 7 = .error (.noSlashRoot (gs "a/b")) ∧
    getDepotPrefix (gs "//a") 5 = .ok (gs "//") :=
  ⟨(C2_amended (gs "a/b") 7).1 (by decide),
   (C2_amended (gs "//a") 5).2.2 (by decide) (by decide)⟩

/-! ## C6 -/

/-- C6: `streamDepth` returns the number of `/` runes minus one when that
is at least 1, and otherwise (the empty string and strings with fewer than
two slashes included) the "unable to get stream depth" error naming the
input. -/
theorem C6_streamDepth (s : GoStr) :
    streamDepth s =
      if 2 ≤ s.count '/' then .ok ((s.count '/' : Int) - 1)
      else .error (.depthErr s) := by
  unfold streamDepth
  rcases Nat.lt_or_ge (s.count '/') 2 with h | h
  · rw [if_pos, if_neg] <;> omega
  · rw [if_neg, if_pos] <;> omega

/-! ## C9 -/

/-- C9: on the 13-character line `... depotFile` (tag with no separator and
no value) the per-line parser panics (out-of-range slice `line[14:]`)
instead of returning an error, for every state and depth; the guard before
the switch passes because it only requires length at least 5 and the
`... ` marker. -/
theorem C9_depotFile_panic (d : Int) (st : ParseState) :
    parseLine d st (gs "... depotFile") = .panicked ∧
    (trimSpace (gs "... depotFile")).length = 13 ∧
    hasPrefixB (trimSpace (gs "... depotFile")) (gs "... ") = true := by
  refine ⟨rfl, by decide, by decide⟩

/-! ## C10 -/

/-- C10: for every command containing none of `-ztag`, `-z tag`, `fstat`,
`runAndParseDepotFiles` fails with the missing `-z tag` error regardless of
the depth-resolution outcome, the command error and the lines — i.e. before
resolving the stream depth or launching the command. -/
theorem C10_guard (cmd : GoStr) (depthRes : Except GoErr Int)
    (cmdErr : Option GoErr) (lines : List GoStr)
    (h1 : containsB cmd (gs "-ztag") = false)
    (h2 : containsB cmd (gs "-z tag") = false)
    (h3 : containsB cmd (gs "fstat") = false) :
    runAndParseDepotFilesPre cmd depthRes cmdErr lines = .err (.missingZTag cmd) := by
  unfold runAndParseDepotFilesPre
  rw [h1, h2, h3]
  rfl

/-- C10, instantiated: `p4 files //depot/main` contains none of the three
substrings, and the guard error appears even though depth resolution would
have failed with a different error. -/
theorem C10_guard_witness :
    containsB plainCmd (gs "-ztag") = false ∧
    containsB plainCmd (gs "-z tag") = false ∧
    containsB plainCmd (gs "fstat") = false ∧
    runAndParseDepotFilesPre plainCmd (.error (.external (gs "no depth"))) none
      [gs "ignored"] = .err (.missingZTag plainCmd) :=
  ⟨by decide, by decide, by decide,
   C10_guard plainCmd (.error (.external (gs "no depth"))) none [gs "ignored"]
     (by decide) (by decide) (by decide)⟩


/-- A non-`%` rune passes through the unescape scan unchanged. -/
theorem unescapeAux_cons_ne (orig : GoStr) (c : Char) (rest u : GoStr)
    (hc : c ≠ '%') (hu : unescapeAux orig rest = .ok u) :
    unescapeAux orig (c :: rest) = .ok (c :: u) := by
  unfold unescapeAux
  rw [if_neg hc, hu]

/-- A `%` followed by two runes accepted by the hex parse decodes to the
written rune, the scan continuing after them. -/
theorem unescapeAux_code (orig : GoStr) (c1 c2 : Char) (rest u : GoStr) (v : Int)
    (hp : parseIntHex [c1, c2] = some v) (hu : unescapeAux orig rest = .ok u) :
    unescapeAux orig ('%' :: c1 :: c2 :: rest) = .ok (writeRuneChar v :: u) := by
  unfold unescapeAux
  simp only [if_pos rfl, if_true, eq_self_iff_true, hp, hu]

/-- A `%` followed by two runes the hex parse rejects is the malformed
escape error carrying the three offending runes. -/
theorem unescapeAux_code_bad (orig : GoStr) (c1 c2 : Char) (rest : GoStr)
    (hp : parseIntHex [c1, c2] = none) :
    unescapeAux orig ('%' :: c1 :: c2 :: rest) = .error (.parseEscape ['%', c1, c2]) := by
  unfold unescapeAux
  simp only [if_pos rfl, if_true, eq_self_iff_true, hp]

/-- Unescaping inverts escaping, whatever string stands as the error
context. -/
theorem unescapeAux_EscapePath (orig : GoStr) : ∀ s : GoStr,
    unescapeAux orig (EscapePath s) = .ok s := by
  intro s
  induction s with
  | nil => rfl
  | cons r t ih =>
    show unescapeAux orig (escapeRune r ++ EscapePath t) = .ok (r :: t)
    by_cases h1 : r = '@'
    · subst h1
      rw [show escapeRune '@' ++ EscapePath t = '%' :: '4' :: '0' :: EscapePath t from rfl]
      rw [unescapeAux_code orig '4' '0' (EscapePath t) t 64 (by decide) ih]
      rfl
    by_cases h2 : r = '#'
    · subst h2
      rw [show escapeRune '#' ++ EscapePath t = '%' :: '2' :: '3' :: EscapePath t from rfl]
      rw [unescapeAux_code orig '2' '3' (EscapePath t) t 35 (by decide) ih]
      rfl
    by_cases h3 : r = '*'
    · subst h3
      rw [show escapeRune '*' ++ EscapePath t = '%' :: '2' :: 'A' :: EscapePath t from rfl]
      rw [unescapeAux_code orig '2' 'A' (EscapePath t) t 42 (by decide) ih]
      rfl
    by_cases h4 : r = '%'
    · subst h4
      rw [show escapeRune '%' ++ EscapePath t = '%' :: '2' :: '5' :: EscapePath t from rfl]
      rw [unescapeAux_code orig '2' '5' (EscapePath t) t 37 (by decide) ih]
      rfl
    · have he : escapeRune r = [r] := by simp [escapeRune, h1, h2, h3, h4]
      rw [he, List.singleton_append]
      exact unescapeAux_cons_ne orig r (EscapePath t) t h4 ih

/-! ## C4 -/

/-- C4: `UnescapePath (EscapePath s)` returns `s` with no error for every
string `s`, and `EscapePath` rewrites exactly `@`, `#`, `*`, `%` to `%40`,
`%23`, `%2A`, `%25`, leaving every other rune unchanged. -/
theorem C4_roundtrip :
    (∀ s : GoStr, UnescapePath (EscapePath s) = .ok s) ∧
    (∀ r : Char, escapeRune r =
      if r = '@' then gs "%40" else if r = '#' then gs "%23"
      else if r = '*' then gs "%2A" else if r = '%' then gs "%25" else [r]) :=
  ⟨fun s => unescapeAux_EscapePath (EscapePath s) s, fun _ => rfl⟩

/-! ## C5 -/

/-- C5 counterexample: in `%+5` the `%` is followed by `+5`, which is not
two hexadecimal digits (`+` is no hex digit), yet `UnescapePath` succeeds,
decoding it as the rune with value 5 — `strconv.ParseInt` accepts a leading
sign. -/
theorem C5_counterexample :
    UnescapePath (gs "%+5") = .ok [Char.ofNat 5] ∧
    hexDigitVal '+' = none := ⟨rfl, rfl⟩

/-- A rune with a hex-digit value is neither `+` nor `-`. -/
theorem hexDigitVal_ne_sign (c : Char) (a : Nat) (h : hexDigitVal c = some a) :
    c ≠ '+' ∧ c ≠ '-' := by
  constructor
  · rintro rfl
    rw [show hexDigitVal '+' = none from rfl] at h
    exact Option.noConfusion h
  · rintro rfl
    rw [show hexDigitVal '-' = none from rfl] at h
    exact Option.noConfusion h

/-- Two hex digits parse to their base-16 value. -/
theorem parseIntHex_digits (d1 d2 : Char) (a b : Nat)
    (h1 : hexDigitVal d1 = some a) (h2 : hexDigitVal d2 = some b) :
    parseIntHex [d1, d2] = some ((16 * a + b : Nat) : Int) := by
  obtain ⟨hp1, hm1⟩ := hexDigitVal_ne_sign d1 a h1
  unfold parseIntHex
  split
  · simp_all
  · rename_i t heq
    rw [List.cons.injEq] at heq
    exact absurd heq.1 hp1
  · rename_i t heq
    rw [List.cons.injEq] at heq
    exact absurd heq.1 hm1
  · simp [parseHexDigits, h1, h2]

/-- C5 amended: a `%` is an error when followed by fewer than two runes, or
by two runes rejected by the signed base-16 parse of `strconv.ParseInt`
(which, beyond two plain hex digits, also accepts a sign followed by one
digit — the deviation the counterexample exhibits); in the success case
two hex digits decode to the rune with that value, and every non-`%` rune
passes through unchanged. -/
theorem C5_amended :
    (∀ orig c1 c2 rest, parseIntHex [c1, c2] = none →
      unescapeAux orig ('%' :: c1 :: c2 :: rest) = .error (.parseEscape ['%', c1, c2])) ∧
    (∀ orig c1 c2 rest u v, parseIntHex [c1, c2] = some v →
      unescapeAux orig rest = .ok u →
      unescapeAux orig ('%' :: c1 :: c2 :: rest) = .ok (writeRuneChar v :: u)) ∧
    (∀ d1 d2 a b, hexDigitVal d1 = some a → hexDigitVal d2 = some b →
      parseIntHex [d1, d2] = some ((16 * a + b : Nat) : Int)) ∧
    (∀ orig, unescapeAux orig ['%'] = .error (.endedEscape orig)) ∧
    (∀ orig c, unescapeAux orig ['%', c] = .error (.endedEscape orig)) ∧
    (∀ orig c rest u, c ≠ '%' → unescapeAux orig rest = .ok u →
      unescapeAux orig (c :: rest) = .ok (c :: u)) := by
  refine ⟨fun orig c1 c2 rest hp => unescapeAux_code_bad orig c1 c2 rest hp,
    fun orig c1 c2 rest u v hp hu => unescapeAux_code orig c1 c2 rest u v hp hu,
    parseIntHex_digits,
    fun orig => rfl,
    fun orig c => ?_,
    fun orig c rest u hc hu => unescapeAux_cons_ne orig c rest u hc hu⟩
  unfold unescapeAux
  simp only [if_pos rfl, if_true, eq_self_iff_true]

/-- C5 amended, instantiated: `%41` decodes to `A`, `%zz` is the malformed
escape error. -/
theorem C5_amended_witness :
    unescapeAux (gs "%41") ('%' :: '4' :: '1' :: []) = .ok [writeRuneChar 65] ∧
    unescapeAux [] ('%' :: 'z' :: 'z' :: []) = .error (.parseEscape ['%', 'z', 'z']) :=
  ⟨C5_amended.2.1 (gs "%41") '4' '1' [] [] 65 (by decide) rfl,
   C5_amended.1 [] 'z' 'z' [] (by decide)⟩


/-- `dropWhile` never lengthens a list. -/
theorem dropWhile_le_length (p : Char → Bool) : ∀ l : GoStr,
    (List.dropWhile p l).length ≤ l.length
  | [] => le_rfl
  | a :: l => by
    rw [List.dropWhile_cons]
    split
    · exact le_trans (dropWhile_le_length p l) (Nat.le_succ _)
    · exact le_rfl

/-- A list fixed by `dropWhile` and non-empty has a head the predicate
rejects. -/
theorem head_false_of_dropWhile_fix (p : Char → Bool) (h : Char) (t : GoStr)
    (hd : List.dropWhile p (h :: t) = h :: t) : p h = false := by
  by_contra hb
  rw [Bool.not_eq_false] at hb
  rw [List.dropWhile_cons, if_pos hb] at hd
  have h1 := congrArg List.length hd
  have h2 := dropWhile_le_length p t
  simp only [List.length_cons] at h1
  omega

/-- Trimming a whitespace-free marker followed by a value with no trailing
whitespace leaves the concatenation unchanged. -/
theorem trimSpace_marker_append (m v : GoStr) (c : Char) (mt : GoStr)
    (hm : m = c :: mt) (hc : goIsSpace c = false)
    (hv2 : v.reverse.dropWhile goIsSpace = v.reverse) (hvne : v ≠ []) :
    trimSpace (m ++ v) = m ++ v := by
  obtain ⟨h, t, hrev⟩ := List.exists_cons_of_ne_nil
    (fun he => hvne (by simpa using congrArg List.reverse he) : v.reverse ≠ [])
  have hph : goIsSpace h = false := by
    rw [hrev] at hv2
    exact head_false_of_dropWhile_fix goIsSpace h t hv2
  have e1 : List.dropWhile goIsSpace (m ++ v) = m ++ v := by
    subst hm
    rw [List.cons_append, List.dropWhile_cons, if_neg (by simp [hc])]
  have e2 : List.dropWhile goIsSpace (m ++ v).reverse = (m ++ v).reverse := by
    rw [List.reverse_append, hrev, List.cons_append, List.dropWhile_cons,
      if_neg (by simp [hph]), ← List.cons_append, ← hrev, ← List.reverse_append]
  unfold trimSpace
  rw [e1, e2, List.reverse_reverse]

/-- Trimming a single leading blank off a value with no surrounding
whitespace yields the value. -/
theorem trimSpace_space_cons (v : GoStr)
    (hv1 : v.dropWhile goIsSpace = v)
    (hv2 : v.reverse.dropWhile goIsSpace = v.reverse) :
    trimSpace (' ' :: v) = v := by
  unfold trimSpace
  rw [List.dropWhile_cons, if_pos (by decide), hv1, hv2, List.reverse_reverse]

/-- Processing the line `... action [v]` assigns `v` to the in-progress
record's `Action` and changes nothing else. -/
theorem parseLine_action (d : Int) (st : ParseState) (v : GoStr)
    (hv1 : v.dropWhile goIsSpace = v)
    (hv2 : v.reverse.dropWhile goIsSpace = v.reverse) (hvne : v ≠ []) :
    parseLine d st (actionLine v) = .ok { st with cur := { st.cur with Action := v } } := by
  have htrim : trimSpace (actionLine v) = actionLine v := by
    rw [actionLine, show ('.' :: '.' :: '.' :: ' ' :: 'a' :: 'c' :: 't' :: 'i' :: 'o' :: 'n' :: ' ' :: v : GoStr) =
      ['.', '.', '.', ' ', 'a', 'c', 't', 'i', 'o', 'n', ' '] ++ v from rfl]
    exact trimSpace_marker_append _ v '.' _ rfl rfl hv2 hvne
  simp only [parseLine, htrim]
  rw [show trimSpace (List.drop 10 (actionLine v)) = v from by
    rw [show List.drop 10 (actionLine v) = ' ' :: v from rfl]
    exact trimSpace_space_cons v hv1 hv2]
  rfl

/-- Processing the line `... headAction [v]` assigns `v` to the
in-progress record's `Action` and changes nothing else. -/
theorem parseLine_headAction (d : Int) (st : ParseState) (v : GoStr)
    (hv1 : v.dropWhile goIsSpace = v)
    (hv2 : v.reverse.dropWhile goIsSpace = v.reverse) (hvne : v ≠ []) :
    parseLine d st (headActionLine v) = .ok { st with cur := { st.cur with Action := v } } := by
  have htrim : trimSpace (headActionLine v) = headActionLine v := by
    rw [headActionLine, show ('.' :: '.' :: '.' :: ' ' :: 'h' :: 'e' :: 'a' :: 'd' :: 'A' :: 'c' :: 't' :: 'i' :: 'o' :: 'n' :: ' ' :: v : GoStr) =
      ['.', '.', '.', ' ', 'h', 'e', 'a', 'd', 'A', 'c', 't', 'i', 'o', 'n', ' '] ++ v from rfl]
    exact trimSpace_marker_append _ v '.' _ rfl rfl hv2 hvne
  simp only [parseLine, htrim]
  rw [show trimSpace (List.drop 14 (headActionLine v)) = v from by
    rw [show List.drop 14 (headActionLine v) = ' ' :: v from rfl]
    exact trimSpace_space_cons v hv1 hv2]
  rfl

/-! ## C8 -/

/-- C8 counterexample: a record carrying `... headAction branch` before
`... action edit` is emitted with `Action = edit` — the primary tag's
value, because each line's assignment overwrites the field and the
`action` line comes last — contrary to the claim that the head-prefixed
tag's value wins regardless of order. -/
theorem C8_counterexample :
    runAndParseDepotFilesPre fstatCmd (.ok 2) none headThenPrimaryLines =
      .ok [recHeadThenPrimary] ∧
    recHeadThenPrimary.Action = gs "edit" ∧ gs "edit" ≠ gs "branch" := by
  refine ⟨by decide, rfl, by decide⟩

/-- C8 amended: for a primary tag line and its head-prefixed alternate in
one record, whichever of the two lines occurs later in the stream
determines the emitted field value: `action v1` then `headAction v2`
leaves `v2`, while `headAction v2` then `action v1` leaves `v1`.  (The
switch's order of prefix checks is immaterial for these tags: a line
matches only its own arm.) -/
theorem C8_amended (d : Int) (st : ParseState) (v1 v2 : GoStr)
    (h11 : v1.dropWhile goIsSpace = v1)
    (h12 : v1.reverse.dropWhile goIsSpace = v1.reverse) (h1ne : v1 ≠ [])
    (h21 : v2.dropWhile goIsSpace = v2)
    (h22 : v2.reverse.dropWhile goIsSpace = v2.reverse) (h2ne : v2 ≠ []) :
    scanLoop (parseLine d) st [actionLine v1, headActionLine v2] =
      .done { st with cur := { st.cur with Action := v2 } } ∧
    scanLoop (parseLine d) st [headActionLine v2, actionLine v1] =
      .done { st with cur := { st.cur with Action := v1 } } := by
  constructor
  · have e1 := parseLine_action d st v1 h11 h12 h1ne
    have e2 := parseLine_headAction d { st with cur := { st.cur with Action := v1 } }
      v2 h21 h22 h2ne
    simp only [scanLoop, e1, e2]
  · have e1 := parseLine_headAction d st v2 h21 h22 h2ne
    have e2 := parseLine_action d { st with cur := { st.cur with Action := v2 } }
      v1 h11 h12 h1ne
    simp only [scanLoop, e1, e2]

/-- C8 amended, instantiated with the values `edit` and `branch`. -/
theorem C8_amended_witness :
    scanLoop (parseLine 2) initState [actionLine (gs "edit"), headActionLine (gs "branch")] =
      .done { initState with cur := { initState.cur with Action := gs "branch" } } ∧
    scanLoop (parseLine 2) initState [headActionLine (gs "branch"), actionLine (gs "edit")] =
      .done { initState with cur := { initState.cur with Action := gs "edit" } } :=
  C8_amended 2 initState (gs "edit") (gs "branch") (by decide) (by decide) (by decide)
    (by decide) (by decide) (by decide)


/-- A successful `parseLine` call leaves `out` unchanged except at a blank
line with a non-empty in-progress path, where exactly the in-progress
record is appended. -/
theorem parseLine_out (d : Int) (st : ParseState) (rawLine : GoStr) (st' : ParseState)
    (h : parseLine d st rawLine = .ok st') :
    st'.out = st.out ∨
      (trimSpace rawLine = [] ∧ st.cur.Path ≠ [] ∧ st'.out = st.out ++ [st.cur]) := by
  simp only [parseLine] at h
  split at h
  · rename_i h0
    split at h
    · rename_i h1
      cases h
      right
      refine ⟨List.length_eq_zero.mp h0, ?_, rfl⟩
      intro hp
      exact h1 (by rw [hp]; rfl)
    · cases h
      left
      rfl
  · split at h
    · cases h
    · split at h
      · split at h
        · cases h
        · split at h
          · split at h
            · cases h
            · split at h
              · cases h
              · cases h; left; rfl
          · split at h
            · cases h
            · cases h; left; rfl
      · split at h
        · cases h; left; rfl
        · split at h
          · cases h; left; rfl
          · split at h
            · cases h; left; rfl
            · split at h
              · cases h; left; rfl
              · split at h
                · cases h; left; rfl
                · split at h
                  · cases h; left; rfl
                  · split at h
                    · cases h; left; rfl
                    · cases h; left; rfl

/-- Scanning preserves the invariant that every flushed record has a
non-empty path. -/
theorem scanLoop_out_nonempty (d : Int) (lines : List GoStr) : ∀ (st st' : ParseState),
    (∀ f ∈ st.out, f.Path ≠ []) →
    scanLoop (parseLine d) st lines = .done st' →
    ∀ f ∈ st'.out, f.Path ≠ [] := by
  induction lines with
  | nil =>
    intro st st' hinv hdone
    simp only [scanLoop] at hdone
    cases hdone
    exact hinv
  | cons l rest ih =>
    intro st st' hinv hdone
    simp only [scanLoop] at hdone
    cases hp : parseLine d st l with
    | ok s1 =>
      simp only [hp] at hdone
      refine ih s1 st' ?_ hdone
      rcases parseLine_out d st l s1 hp with he | ⟨-, hne, he⟩
      · rw [he]; exact hinv
      · rw [he]
        intro f hf
        rcases List.mem_append.mp hf with hf | hf
        · exact hinv f hf
        · rw [List.mem_singleton.mp hf]
          exact hne
    | err e =>
      simp only [hp] at hdone
      cases hdone
    | panicked =>
      simp only [hp] at hdone
      cases hdone

/-- A successful parse phase yields only records with non-empty paths. -/
theorem pre_out_nonempty (cmd : GoStr) (depthRes : Except GoErr Int)
    (cmdErr : Option GoErr) (lines : List GoStr) (pre : List DepotFile)
    (h : runAndParseDepotFilesPre cmd depthRes cmdErr lines = .ok pre) :
    ∀ f ∈ pre, f.Path ≠ [] := by
  unfold runAndParseDepotFilesPre at h
  split at h
  · cases h
  · split at h
    · cases h
    · rename_i d
      unfold cmdAndScan at h
      cases hscan : scanLoop (parseLine d) initState lines with
      | done st =>
        simp only [hscan] at h
        cases cmdErr with
        | some p => simp at h
        | none =>
          simp only [] at h
          cases h
          exact scanLoop_out_nonempty d lines initState st (by simp [initState]) hscan
      | stopped s e =>
        simp only [hscan] at h
        cases cmdErr <;> simp at h
      | panicked =>
        simp only [hscan] at h
        cases h

/-! ## C7 -/

/-- C7: every record in a result `runAndParseDepotFiles` may return has a
non-empty `Path`; a record is appended only at a blank-line boundary while
the in-progress path is non-empty, and a record still in progress when the
lines end without a final boundary is not emitted (the scan's final state
contributes only its flushed `out`). -/
theorem C7_nonempty_paths :
    (∀ cmd depthRes cmdErr lines files,
        RunAndParseSpec cmd depthRes cmdErr lines (.ok files) →
        ∀ f ∈ files, f.Path ≠ []) ∧
    (∀ d st rawLine st', parseLine d st rawLine = .ok st' →
        st'.out = st.out ∨
          (trimSpace rawLine = [] ∧ st.cur.Path ≠ [] ∧ st'.out = st.out ++ [st.cur])) := by
  constructor
  · intro cmd depthRes cmdErr lines files hspec f hf
    unfold RunAndParseSpec at hspec
    cases hpre : runAndParseDepotFilesPre cmd depthRes cmdErr lines with
    | ok pre =>
      rw [hpre] at hspec
      obtain ⟨files', heq, hperm, -⟩ := hspec
      cases heq
      exact pre_out_nonempty cmd depthRes cmdErr lines pre hpre f (hperm.mem_iff.mp hf)
    | err e =>
      rw [hpre] at hspec
      cases hspec
    | panicked =>
      rw [hpre] at hspec
      cases hspec
  · exact parseLine_out

/-- C7, instantiated: a one-record stream whose record is terminated by a
blank line yields that record, whose path is non-empty; an unterminated
record yields nothing at all. -/
theorem C7_witness :
    (∀ f ∈ [recEngine], f.Path ≠ []) ∧
    runAndParseDepotFilesPre fstatCmd (.ok 2) none [gs "... depotFile //s/d/Engine"] =
      .ok [] :=
  ⟨C7_nonempty_paths.1 fstatCmd (.ok 2) none engineLines [recEngine]
      (by exact ⟨[recEngine], rfl, List.Perm.refl _, by decide⟩),
   by decide⟩


/-- Among the permutations of the discovery order `zeta`, `Alpha`, `beta`,
only `Alpha`, `beta`, `zeta` is sorted under the case-insensitive
comparison: with pairwise-distinct folded paths the conforming output of
the sort is unique. -/
theorem sorted_perm_zeta (files : List DepotFile)
    (hperm : files.Perm [recZeta, recAlpha, recBeta])
    (hsort : ciSorted files = true) :
    files = [recAlpha, recBeta, recZeta] := by
  have hmem : files ∈ ([recZeta, recAlpha, recBeta] : List DepotFile).permutations' :=
    List.mem_permutations'.mpr hperm
  have hperms : ([recZeta, recAlpha, recBeta] : List DepotFile).permutations' =
      [[recZeta, recAlpha, recBeta], [recAlpha, recZeta, recBeta],
       [recAlpha, recBeta, recZeta], [recZeta, recBeta, recAlpha],
       [recBeta, recZeta, recAlpha], [recBeta, recAlpha, recZeta]] := by decide
  rw [hperms] at hmem
  simp only [List.mem_cons, List.not_mem_nil, or_false] at hmem
  rcases hmem with rfl | rfl | rfl | rfl | rfl | rfl
  · exact absurd hsort (by decide)
  · exact absurd hsort (by decide)
  · rfl
  · exact absurd hsort (by decide)
  · exact absurd hsort (by decide)
  · exact absurd hsort (by decide)

/-! ## C3 -/

/-- C3 counterexample: parsing discovers the records with paths `a` then
`A` (equal after case-folding, in that discovery order), yet the result
that lists `A` before `a` also satisfies the contract of the final
`sort.Sort` — a sorted permutation, stability not guaranteed — so the
claimed preservation of discovery order on case-folded ties does not hold
of `runAndParseDepotFiles`. -/
theorem C3_counterexample :
    runAndParseDepotFilesPre fstatCmd (.ok 2) none tieLines = .ok [recLowerA, recUpperA] ∧
    RunAndParseSpec fstatCmd (.ok 2) none tieLines (.ok [recUpperA, recLowerA]) ∧
    toLowerStr recLowerA.Path = toLowerStr recUpperA.Path ∧
    recUpperA ≠ recLowerA := by
  refine ⟨by decide, ?_, by decide, by decide⟩
  unfold RunAndParseSpec
  rw [show runAndParseDepotFilesPre fstatCmd (.ok 2) none tieLines =
    .ok [recLowerA, recUpperA] from by decide]
  exact ⟨[recUpperA, recLowerA], rfl, by decide, by decide⟩

/-- C3 amended: every result of `runAndParseDepotFiles` is a permutation
of the discovered records ordered by the case-insensitive comparison; the
relative order of records whose paths are equal after case-folding is not
specified (Go's `sort.Sort` is documented as unstable).  When the folded
paths are pairwise distinct the result is unique: the spec's example
`zeta`, `Alpha`, `beta` necessarily sorts to `Alpha`, `beta`, `zeta`. -/
theorem C3_amended :
    (∀ cmd depthRes cmdErr lines pre files,
        runAndParseDepotFilesPre cmd depthRes cmdErr lines = .ok pre →
        RunAndParseSpec cmd depthRes cmdErr lines (.ok files) →
        files.Perm pre ∧ ciSorted files = true) ∧
    (∀ r, RunAndParseSpec fstatCmd (.ok 2) none zetaLines r →
        r = .ok [recAlpha, recBeta, recZeta]) := by
  constructor
  · intro cmd depthRes cmdErr lines pre files hpre hspec
    unfold RunAndParseSpec at hspec
    rw [hpre] at hspec
    obtain ⟨files', heq, hperm, hsort⟩ := hspec
    cases heq
    exact ⟨hperm, hsort⟩
  · intro r hspec
    unfold RunAndParseSpec at hspec
    rw [show runAndParseDepotFilesPre fstatCmd (.ok 2) none zetaLines =
      .ok [recZeta, recAlpha, recBeta] from by decide] at hspec
    obtain ⟨files, rfl, hperm, hsort⟩ := hspec
    rw [sorted_perm_zeta files hperm hsort]

/-- C3 amended, instantiated on the spec's example stream. -/
theorem C3_amended_witness :
    ([recAlpha, recBeta, recZeta] : List DepotFile).Perm [recZeta, recAlpha, recBeta] ∧
    ciSorted [recAlpha, recBeta, recZeta] = true :=
  C3_amended.1 fstatCmd (.ok 2) none zetaLines [recZeta, recAlpha, recBeta]
    [recAlpha, recBeta, recZeta] (by decide)
    (by
      unfold RunAndParseSpec
      rw [show runAndParseDepotFilesPre fstatCmd (.ok 2) none zetaLines =
        .ok [recZeta, recAlpha, recBeta] from by decide]
      exact ⟨[recAlpha, recBeta, recZeta], rfl, by decide, by decide⟩)

end P4
